import Mathlib

/-!
Shallow embedding of `apertools/los.py` (line-of-sight / ENU geometry), with
theorems checking the natural-language specification against the code.

Real-valued trigonometric code is embedded over `ℝ`; the raster
decomposition and date-axis merge are embedded over `ℚ` and `ℤ` so that
concrete witnesses evaluate.
-/

namespace Apertools

/-- Embeds `np.deg2rad`: degrees to radians. -/
noncomputable def deg2rad (x : ℝ) : ℝ := x * Real.pi / 180

/-- Embeds `rot(angle, axis, in_degrees)` from `los.py`.  The Python code
starts from `np.eye(3)` and overwrites the four entries of the block fixed
by `axis`; for any other axis it raises `ValueError`, modeled as `none`. -/
noncomputable def rot (angle : ℝ) (axis : ℕ) (in_degrees : Bool) :
    Option (Matrix (Fin 3) (Fin 3) ℝ) :=
  let a := if in_degrees then deg2rad angle else angle
  let c := Real.cos a
  let s := Real.sin a
  if axis = 1 then some !![1, 0, 0; 0, c, s; 0, -s, c]
  else if axis = 2 then some !![c, 0, -s; 0, 1, 0; s, 0, c]
  else if axis = 3 then some !![c, s, 0; -s, c, 0; 0, 0, 1]
  else none

/-- Embeds `rotate_xyz_to_enu(xyz, lat, lon)` on a single 3-vector:
`R3 = rot(90 + lon, 3)`, `R1 = rot(90 - lat, 1)`, result
`np.matmul(R1, np.matmul(R3, xyz))`.  The two `rot` calls use the literal
axes 1 and 3, so the `ValueError` branch is unreachable (`getD` default). -/
noncomputable def rotate_xyz_to_enu (xyz : Fin 3 → ℝ) (lat lon : ℝ) : Fin 3 → ℝ :=
  ((rot (90 - lat) 1 true).getD 1).mulVec (((rot (90 + lon) 3 true).getD 1).mulVec xyz)

/-- Embeds `rotate_xyz_to_enu` on a batched `(3, k)` input, where
`np.matmul` is the matrix-matrix product. -/
noncomputable def rotate_xyz_to_enu_batch {k : ℕ} (xyz : Matrix (Fin 3) (Fin k) ℝ)
    (lat lon : ℝ) : Matrix (Fin 3) (Fin k) ℝ :=
  ((rot (90 - lat) 1 true).getD 1) * (((rot (90 + lon) 3 true).getD 1) * xyz)

/-- Embeds `convert_xyz_latlon_to_enu(lat_lons, xyz_array)`:
`np.array([rotate_xyz_to_enu(xyz, lat, lon) for (lat, lon), xyz in
zip(lat_lons, xyz_array)])`.  the Python `zip` truncates to the shorter
input. -/
noncomputable def convert_xyz_latlon_to_enu (lat_lons : List (ℝ × ℝ))
    (xyz_array : List (Fin 3 → ℝ)) : List (Fin 3 → ℝ) :=
  (lat_lons.zip xyz_array).map fun p => rotate_xyz_to_enu p.2 p.1.1 p.1.2

/-- Embeds `los_to_enu`: the `los_file` branch is commented out in the
source, so the function just forwards to `convert_xyz_latlon_to_enu`. -/
noncomputable def los_to_enu (lat_lons : List (ℝ × ℝ))
    (xyz_los_vecs : List (Fin 3 → ℝ)) : List (Fin 3 → ℝ) :=
  convert_xyz_latlon_to_enu lat_lons xyz_los_vecs

/-- Embeds `np.linalg.norm` on a 3-vector: the Euclidean norm. -/
noncomputable def npNorm (v : Fin 3 → ℝ) : ℝ := Real.sqrt (∑ i, v i ^ 2)

/-- Embeds `project_enu_to_los(enu, los_vec, lat, lon, enu_coeffs)` on a
single ENU 3-vector.  When `enu_coeffs` is `None` the code computes
`los_hat = los_vec / np.linalg.norm(los_vec)` (no zero check) and
`enu_coeffs = rotate_xyz_to_enu(los_hat, lat, lon)`; it returns
`np.dot(enu_coeffs, enu)`. -/
noncomputable def project_enu_to_los (enu : Fin 3 → ℝ) (los_vec : Fin 3 → ℝ)
    (lat lon : ℝ) (enu_coeffs : Option (Fin 3 → ℝ)) : ℝ :=
  match enu_coeffs with
  | some cf => ∑ i, cf i * enu i
  | none =>
      ∑ i, rotate_xyz_to_enu (fun j => los_vec j / npNorm los_vec) lat lon i * enu i

/-- Embeds `project_enu_to_los` on a batched `(3, k)` ENU input, where
`np.dot` of a 3-vector with a `(3, k)` array is the length-`k` vector of
columnwise dot products. -/
noncomputable def project_enu_to_los_batch {k : ℕ} (enu : Matrix (Fin 3) (Fin k) ℝ)
    (los_vec : Fin 3 → ℝ) (lat lon : ℝ) (enu_coeffs : Option (Fin 3 → ℝ)) :
    Fin k → ℝ :=
  match enu_coeffs with
  | some cf => fun j => ∑ i, cf i * enu i j
  | none =>
      fun j => ∑ i, rotate_xyz_to_enu (fun l => los_vec l / npNorm los_vec) lat lon i * enu i j

/-- Model of the on-disk LOS map (`h5py` file with `lats`, `lons`,
`stack` datasets), a collaborator of `find_enu_coeffs`. -/
structure LosMapFile where
  lats : List ℝ
  lons : List ℝ
  stack : ℝ → ℝ → Fin 3 → ℝ

/-- Embeds `_find_nearest(array, value)`: the element of `array` whose
absolute difference to `value` is smallest (first argmin, as `np.argmin`). -/
noncomputable def _find_nearest (array : List ℝ) (value : ℝ) : ℝ :=
  (array.argmin (fun x => |x - value|)).getD 0

/-- Embeds `_read_los_map_file(los_map_file, lat, lon)`. -/
noncomputable def _read_los_map_file (f : LosMapFile) (lat lon : ℝ) : Fin 3 → ℝ :=
  f.stack (_find_nearest f.lats lat) (_find_nearest f.lons lon)

/-- Embeds `find_enu_coeffs(lon, lat, geo_path, los_map_file, verbose)`:
the body is a single `if los_map_file is not None: return
_read_los_map_file(...)` with no `else`, so Python falls through and
returns `None`.  `geo_path` and `verbose` are unused by the body. -/
noncomputable def find_enu_coeffs (lon lat : ℝ) (geo_path : Option Unit)
    (los_map_file : Option LosMapFile) (verbose : Bool) : Option (Fin 3 → ℝ) :=
  match los_map_file with
  | some f => some (_read_los_map_file f lat lon)
  | none => none

/-- A loaded deformation raster stack: its `(nlayers, nrows, ncols)` shape
and its flattened (`reshape(-1)`) data, embedded over `ℚ`. -/
structure Stack where
  shape : ℕ × ℕ × ℕ
  data : List ℚ
deriving DecidableEq

/-- The two failure modes of the decomposition step of
`find_vertical_def`: the shape `assert` (an `AssertionError` in Python)
and the singular-matrix failure of `np.linalg.solve` (`LinAlgError`). -/
inductive DecompError where
  | ShapeMismatch
  | SingularGeometry
deriving DecidableEq

/-- Determinant of the stacked 2×2 coefficient matrix
`M = np.vstack((eu_asc, eu_desc)) = [[aE_asc, aU_asc], [aE_desc, aU_desc]]`. -/
def det2 (eu_asc eu_desc : ℚ × ℚ) : ℚ :=
  eu_asc.1 * eu_desc.2 - eu_asc.2 * eu_desc.1

/-- Embeds the decomposition step of `find_vertical_def` (the part after
the I/O: the shape `assert`, `np.vstack` of the flattened stacks, the
batched `np.linalg.solve(east_up_coeffs, d_asc_desc)`, and the reshape of
the two solution rows back to the input shape).  `np.linalg.solve` on a
2×2 system solves each column `j` of the right-hand side:
`[east_j, vert_j] = M⁻¹ · [asc_j, desc_j]`, which by the Cramer rule is
`east_j = (asc_j·M₁₁ - desc_j·M₀₁)/det`, `vert_j = (M₀₀·desc_j -
M₁₀·asc_j)/det`; it fails on a singular matrix. -/
def find_vertical_def (eu_asc eu_desc : ℚ × ℚ) (asc_deform desc_deform : Stack) :
    Except DecompError (Stack × Stack) :=
  if asc_deform.shape ≠ desc_deform.shape then .error .ShapeMismatch
  else if det2 eu_asc eu_desc = 0 then .error .SingularGeometry
  else
    let cols := asc_deform.data.zip desc_deform.data
    .ok (⟨asc_deform.shape,
            cols.map fun p => (p.1 * eu_desc.2 - p.2 * eu_asc.2) / det2 eu_asc eu_desc⟩,
         ⟨asc_deform.shape,
            cols.map fun p => (eu_asc.1 * p.2 - eu_desc.1 * p.1) / det2 eu_asc eu_desc⟩)

/-- Embeds `np.intersect1d(ar1, ar2, return_indices=True)`: the sorted
unique common values, with for each common value the index of its first
occurrence in `ar1` and in `ar2` (in ascending value order). -/
def intersect1d (ar1 ar2 : List ℤ) : List ℤ × List ℕ × List ℕ :=
  let common := ((ar1.filter fun v => v ∈ ar2).insertionSort (· ≤ ·)).dedup
  (common, common.map fun v => ar1.indexOf v, common.map fun v => ar2.indexOf v)

/-- Embeds `merge_geolists(geolist1, geolist2)`: concatenate, sort in
place, then `np.intersect1d(merged, geolist_i, return_indices=True)` for
each input, keeping the indices into the merged list. -/
def merge_geolists (geolist1 geolist2 : List ℤ) : List ℤ × List ℕ × List ℕ :=
  let merged := (geolist1 ++ geolist2).insertionSort (· ≤ ·)
  (merged, (intersect1d merged geolist1).2.1, (intersect1d merged geolist2).2.1)

/-! ## Helper lemmas -/

theorem zip_zipWith_pair (f g : ℚ → ℚ → ℚ) :
    ∀ (l1 l2 : List ℚ), (List.zipWith f l1 l2).zip (List.zipWith g l1 l2)
      = List.zipWith (fun a b => (f a b, g a b)) l1 l2
  | [], _ => by simp
  | _ :: _, [] => by simp
  | a :: l1, b :: l2 => by simp [zip_zipWith_pair f g l1 l2]

theorem zipWith_proj (f : ℚ → ℚ → ℚ × ℚ) (hf : ∀ a b, f a b = (a, b)) :
    ∀ (l1 l2 : List ℚ), l1.length = l2.length →
      (List.zipWith f l1 l2).map Prod.fst = l1 ∧ (List.zipWith f l1 l2).map Prod.snd = l2
  | [], [], _ => by simp
  | [], _ :: _, h => by simp at h
  | _ :: _, [], h => by simp at h
  | a :: l1, b :: l2, h => by
      have ih := zipWith_proj f hf l1 l2 (by simpa using h)
      simp [hf, ih.1, ih.2]

/-! ## Claim theorems -/

/-- C10: when no lookup source is supplied (`los_map_file is None`),
`find_enu_coeffs` returns `None` for every `lat` and `lon`: the body is an
`if` with no `else`, so Python falls through without deriving coefficients
from a raw vector and without raising. -/
theorem find_enu_coeffs_none (lon lat : ℝ) (geo_path : Option Unit) (verbose : Bool) :
    find_enu_coeffs lon lat geo_path none verbose = none := rfl

/-- C5: with `enu_coeffs` supplied, `project_enu_to_los` is the dot
product of the coefficient 3-vector with the ENU input (columnwise, hence
a length-`k` result, in the batched case); in particular `enu = [1,2,3]`
projected on coefficients `[1,0,0]`, `[0,1,0]`, `[0,0,1]` gives `1`, `2`,
`3`. -/
theorem project_enu_to_los_dot (cf enu los_vec : Fin 3 → ℝ) (lat lon : ℝ)
    (k : ℕ) (E : Matrix (Fin 3) (Fin k) ℝ) (j : Fin k) :
    project_enu_to_los enu los_vec lat lon (some cf) = ∑ i, cf i * enu i ∧
    project_enu_to_los_batch E los_vec lat lon (some cf) j = ∑ i, cf i * E i j ∧
    project_enu_to_los ![1, 2, 3] los_vec lat lon (some ![1, 0, 0]) = 1 ∧
    project_enu_to_los ![1, 2, 3] los_vec lat lon (some ![0, 1, 0]) = 2 ∧
    project_enu_to_los ![1, 2, 3] los_vec lat lon (some ![0, 0, 1]) = 3 := by
  refine ⟨rfl, rfl, ?_, ?_, ?_⟩ <;>
    norm_num [project_enu_to_los, Fin.sum_univ_three]

/-- C4: if the shapes of the two stacks differ, `find_vertical_def` hits the
shape `assert` and fails with `ShapeMismatch` before any solving, whatever
the coefficient pairs (even singular ones); no output is produced. -/
theorem find_vertical_def_shape_mismatch (eu_asc eu_desc : ℚ × ℚ)
    (asc desc : Stack) (h : asc.shape ≠ desc.shape) :
    find_vertical_def eu_asc eu_desc asc desc = .error .ShapeMismatch := by
  simp [find_vertical_def, h]

/-- C4 (witness): stacks of shape `(5,10,10)` and `(5,10,11)` fail with
`ShapeMismatch`. -/
theorem find_vertical_def_shape_mismatch_witness :
    find_vertical_def (1, 1) (1, 1) ⟨(5, 10, 10), []⟩ ⟨(5, 10, 11), []⟩ =
      .error .ShapeMismatch :=
  find_vertical_def_shape_mismatch _ _ _ _ (by decide)

/-- C3 (counterexample): the ascending pair `(1, 1)` and descending pair
`(1, 1 + 10⁻¹³)` differ by less than `1e-12`, so the claim requires a
`SingularGeometry` failure; but the matrix is not exactly singular, so the
`np.linalg.solve` step succeeds and the decomposition returns east `[1]`,
vertical `[0]`. -/
theorem find_vertical_def_near_singular_cex :
    find_vertical_def (1, 1) (1, 1 + 1 / 10 ^ 13) ⟨(1, 1, 1), [1]⟩ ⟨(1, 1, 1), [1]⟩ =
      .ok (⟨(1, 1, 1), [1]⟩, ⟨(1, 1, 1), [0]⟩) := by
  rw [find_vertical_def]
  norm_num [det2, List.zip]

/-- C3 (amended): for same-shaped stacks the decomposition step fails with
`SingularGeometry` exactly when the stacked 2×2 coefficient matrix is
exactly singular (`det = 0`, e.g. identical pairs); a near-singular but
nonsingular matrix is solved normally and a result is returned. -/
theorem find_vertical_def_singular_iff (eu_asc eu_desc : ℚ × ℚ)
    (asc desc : Stack) (h : asc.shape = desc.shape) :
    find_vertical_def eu_asc eu_desc asc desc = .error .SingularGeometry ↔
      det2 eu_asc eu_desc = 0 := by
  rw [find_vertical_def]
  split_ifs with h1 h2 <;> simp_all

/-- C3 (witness): identical coefficient pairs on same-shaped stacks. -/
theorem find_vertical_def_singular_iff_witness :
    (find_vertical_def (1, 1) (1, 1) ⟨(2, 2, 2), [1, 2]⟩ ⟨(2, 2, 2), [3, 4]⟩ =
        .error .SingularGeometry ↔ det2 (1, 1) (1, 1) = 0) :=
  find_vertical_def_singular_iff _ _ _ _ rfl

/-- C1: decomposer round-trip.  If `los_asc` and `los_desc` are built from
truth stacks by `los = aE·east + aU·vertical` with the respective
coefficient pairs, and the stacked 2×2 matrix is nonsingular, then the
decomposition step of `find_vertical_def` recovers exactly `east_truth`
and `vertical_truth`, with the output stacks carrying the input shape. -/
theorem find_vertical_def_round_trip (aE_asc aU_asc aE_desc aU_desc : ℚ)
    (s : ℕ × ℕ × ℕ) (east_truth vertical_truth : List ℚ)
    (hdet : det2 (aE_asc, aU_asc) (aE_desc, aU_desc) ≠ 0)
    (hlen : east_truth.length = vertical_truth.length) :
    find_vertical_def (aE_asc, aU_asc) (aE_desc, aU_desc)
        ⟨s, List.zipWith (fun e v => aE_asc * e + aU_asc * v) east_truth vertical_truth⟩
        ⟨s, List.zipWith (fun e v => aE_desc * e + aU_desc * v) east_truth vertical_truth⟩
      = .ok (⟨s, east_truth⟩, ⟨s, vertical_truth⟩) := by
  rw [find_vertical_def]
  rw [if_neg (by simp), if_neg hdet]
  have hz := zip_zipWith_pair (fun e v => aE_asc * e + aU_asc * v)
      (fun e v => aE_desc * e + aU_desc * v) east_truth vertical_truth
  simp only [hz, List.map_zipWith]
  have hproj := zipWith_proj
      (fun e v => (((aE_asc * e + aU_asc * v) * aU_desc - (aE_desc * e + aU_desc * v) * aU_asc)
          / det2 (aE_asc, aU_asc) (aE_desc, aU_desc),
        (aE_asc * (aE_desc * e + aU_desc * v) - aE_desc * (aE_asc * e + aU_asc * v))
          / det2 (aE_asc, aU_asc) (aE_desc, aU_desc)))
      (fun a b => by
        rw [Prod.mk.injEq, div_eq_iff hdet, div_eq_iff hdet]
        constructor <;> (simp only [det2]; ring))
      east_truth vertical_truth hlen
  simp only [List.map_zipWith] at hproj
  rw [Except.ok.injEq, Prod.mk.injEq]
  constructor
  · rw [Stack.mk.injEq]
    exact ⟨rfl, hproj.1⟩
  · rw [Stack.mk.injEq]
    exact ⟨rfl, hproj.2⟩

/-- C1 (witness): coefficient pairs `(1,0)` and `(0,1)` (the identity
geometry), truth stacks `[5,6]` and `[7,8]` of shape `(1,1,2)`. -/
theorem find_vertical_def_round_trip_witness :
    find_vertical_def (1, 0) (0, 1)
        ⟨(1, 1, 2), List.zipWith (fun e v => 1 * e + 0 * v) [5, 6] [7, 8]⟩
        ⟨(1, 1, 2), List.zipWith (fun e v => 0 * e + 1 * v) [5, 6] [7, 8]⟩
      = .ok (⟨(1, 1, 2), [5, 6]⟩, ⟨(1, 1, 2), [7, 8]⟩) :=
  find_vertical_def_round_trip 1 0 0 1 (1, 1, 2) [5, 6] [7, 8]
    (by norm_num [det2]) rfl

/-- C7 (counterexample): one `(lat, lon)` point paired with two XYZ
vectors — the claimed `LengthMismatch` failure does not happen: the Python
`zip` silently truncates to the shorter sequence and a length-1 result is
returned. -/
theorem convert_xyz_latlon_to_enu_mismatch_cex :
    (convert_xyz_latlon_to_enu [(0, 0)] [![1, 0, 0], ![0, 1, 0]]).length = 1 := rfl

/-- C7 (amended): no length check is performed and no error is raised; the
batch conversion zips the two inputs, truncating to the shorter length, so
it returns `min len₁ len₂` vectors, the `i`-th being `rotate_xyz_to_enu`
of the `i`-th XYZ vector at the `i`-th `(lat, lon)` point; `los_to_enu`
forwards to `convert_xyz_latlon_to_enu` unchanged. -/
theorem convert_xyz_latlon_to_enu_truncates (lat_lons : List (ℝ × ℝ))
    (xyz_array : List (Fin 3 → ℝ)) (i : ℕ) (p : ℝ × ℝ) (v : Fin 3 → ℝ)
    (hp : lat_lons[i]? = some p) (hv : xyz_array[i]? = some v) :
    (convert_xyz_latlon_to_enu lat_lons xyz_array).length
        = min lat_lons.length xyz_array.length ∧
    los_to_enu lat_lons xyz_array = convert_xyz_latlon_to_enu lat_lons xyz_array ∧
    (convert_xyz_latlon_to_enu lat_lons xyz_array)[i]?
        = some (rotate_xyz_to_enu v p.1 p.2) := by
  refine ⟨by simp [convert_xyz_latlon_to_enu], rfl, ?_⟩
  have hz : (lat_lons.zip xyz_array)[i]? = some (p, v) :=
    (List.getElem?_zip_eq_some).mpr ⟨hp, hv⟩
  simp [convert_xyz_latlon_to_enu, hz]

/-- C7 (witness): a singleton point list and singleton vector list. -/
theorem convert_xyz_latlon_to_enu_truncates_witness :
    (convert_xyz_latlon_to_enu [((0 : ℝ), 0)] [![1, 0, 0]]).length
        = min [((0 : ℝ), 0)].length [![(1 : ℝ), 0, 0]].length ∧
    los_to_enu [((0 : ℝ), 0)] [![1, 0, 0]]
        = convert_xyz_latlon_to_enu [((0 : ℝ), 0)] [![1, 0, 0]] ∧
    (convert_xyz_latlon_to_enu [((0 : ℝ), 0)] [![1, 0, 0]])[0]?
        = some (rotate_xyz_to_enu ![1, 0, 0] (0, (0 : ℝ)).1 (0, (0 : ℝ)).2) :=
  convert_xyz_latlon_to_enu_truncates [(0, 0)] [![1, 0, 0]] 0 (0, 0) ![1, 0, 0] rfl rfl

/-- C2: `rotate_xyz_to_enu(xyz, lat, lon)` is the product
`R1(90 - lat) · R3(90 + lon) · xyz` with `R1`, `R3` the single-axis
matrices produced by `rot` (angles in degrees); on a `(3, k)` batch it is
the corresponding matrix product, whose `j`-th column is the single-vector
result on the `j`-th input column (so the output shape matches the input
shape in both modes). -/
theorem rotate_xyz_to_enu_spec (lat lon : ℝ) (xyz : Fin 3 → ℝ) (k : ℕ)
    (X : Matrix (Fin 3) (Fin k) ℝ) (i : Fin 3) (j : Fin k)
    (R1 R3 : Matrix (Fin 3) (Fin 3) ℝ)
    (h1 : rot (90 - lat) 1 true = some R1) (h3 : rot (90 + lon) 3 true = some R3) :
    rotate_xyz_to_enu xyz lat lon = (R1 * R3).mulVec xyz ∧
    rotate_xyz_to_enu_batch X lat lon = R1 * R3 * X ∧
    rotate_xyz_to_enu_batch X lat lon i j
      = rotate_xyz_to_enu (fun l => X l j) lat lon i := by
  have e1 : (rot (90 - lat) 1 true).getD 1 = R1 := by rw [h1]; rfl
  have e3 : (rot (90 + lon) 3 true).getD 1 = R3 := by rw [h3]; rfl
  refine ⟨?_, ?_, ?_⟩
  · rw [rotate_xyz_to_enu, e1, e3, Matrix.mulVec_mulVec]
  · rw [rotate_xyz_to_enu_batch, e1, e3, Matrix.mul_assoc]
  · rw [rotate_xyz_to_enu_batch, rotate_xyz_to_enu, e1, e3]
    simp [Matrix.mul_apply, Matrix.mulVec, Matrix.dotProduct, Fin.sum_univ_three]

/-- C2 (witness): at `lat = lon = 0`, on the vector `[1,2,3]` and the
one-column batch `[[4],[5],[6]]`. -/
theorem rotate_xyz_to_enu_spec_witness :
    rotate_xyz_to_enu ![1, 2, 3] 0 0
        = (((rot (90 - 0) 1 true).getD 1) * ((rot (90 + 0) 3 true).getD 1)).mulVec ![1, 2, 3] ∧
    rotate_xyz_to_enu_batch !![(4 : ℝ); 5; 6] 0 0
        = ((rot (90 - 0) 1 true).getD 1) * ((rot (90 + 0) 3 true).getD 1) * !![(4 : ℝ); 5; 6] ∧
    rotate_xyz_to_enu_batch !![(4 : ℝ); 5; 6] 0 0 0 0
        = rotate_xyz_to_enu (fun l => !![(4 : ℝ); 5; 6] l 0) 0 0 0 :=
  rotate_xyz_to_enu_spec 0 0 ![1, 2, 3] 1 !![(4 : ℝ); 5; 6] 0 0 _ _
    (by simp [rot]) (by simp [rot])

theorem rot1_props (c s : ℝ) (hcs : s ^ 2 + c ^ 2 = 1) :
    ((!![1, 0, 0; 0, c, s; 0, -s, c] : Matrix (Fin 3) (Fin 3) ℝ).transpose
        * !![1, 0, 0; 0, c, s; 0, -s, c] = 1) ∧
    (!![1, 0, 0; 0, c, s; 0, -s, c] * (!![1, 0, 0; 0, c, s; 0, -s, c]
        : Matrix (Fin 3) (Fin 3) ℝ).transpose = 1) ∧
    (!![1, 0, 0; 0, c, s; 0, -s, c] : Matrix (Fin 3) (Fin 3) ℝ).det = 1 := by
  have ht : (!![1, 0, 0; 0, c, s; 0, -s, c] : Matrix (Fin 3) (Fin 3) ℝ).transpose
      = !![1, 0, 0; 0, c, -s; 0, s, c] := by
    rw [Matrix.eta_fin_three ((!![1, 0, 0; 0, c, s; 0, -s, c] :
        Matrix (Fin 3) (Fin 3) ℝ).transpose)]
    simp [Matrix.vecHead, Matrix.vecTail]
  refine ⟨?_, ?_, ?_⟩
  · rw [ht, Matrix.mul_fin_three, Matrix.one_fin_three]
    ext i j
    fin_cases i <;> fin_cases j <;> simp [Matrix.vecHead, Matrix.vecTail] <;> (first | ring1 | linear_combination hcs)
  · rw [ht, Matrix.mul_fin_three, Matrix.one_fin_three]
    ext i j
    fin_cases i <;> fin_cases j <;> simp [Matrix.vecHead, Matrix.vecTail] <;> (first | ring1 | linear_combination hcs)
  · rw [Matrix.det_fin_three]
    simp [Matrix.vecHead, Matrix.vecTail]
    all_goals (first | ring1 | linear_combination hcs)

theorem rot2_props (c s : ℝ) (hcs : s ^ 2 + c ^ 2 = 1) :
    ((!![c, 0, -s; 0, 1, 0; s, 0, c] : Matrix (Fin 3) (Fin 3) ℝ).transpose
        * !![c, 0, -s; 0, 1, 0; s, 0, c] = 1) ∧
    (!![c, 0, -s; 0, 1, 0; s, 0, c] * (!![c, 0, -s; 0, 1, 0; s, 0, c]
        : Matrix (Fin 3) (Fin 3) ℝ).transpose = 1) ∧
    (!![c, 0, -s; 0, 1, 0; s, 0, c] : Matrix (Fin 3) (Fin 3) ℝ).det = 1 := by
  have ht : (!![c, 0, -s; 0, 1, 0; s, 0, c] : Matrix (Fin 3) (Fin 3) ℝ).transpose
      = !![c, 0, s; 0, 1, 0; -s, 0, c] := by
    rw [Matrix.eta_fin_three ((!![c, 0, -s; 0, 1, 0; s, 0, c] :
        Matrix (Fin 3) (Fin 3) ℝ).transpose)]
    simp [Matrix.vecHead, Matrix.vecTail]
  refine ⟨?_, ?_, ?_⟩
  · rw [ht, Matrix.mul_fin_three, Matrix.one_fin_three]
    ext i j
    fin_cases i <;> fin_cases j <;> simp [Matrix.vecHead, Matrix.vecTail] <;> (first | ring1 | linear_combination hcs)
  · rw [ht, Matrix.mul_fin_three, Matrix.one_fin_three]
    ext i j
    fin_cases i <;> fin_cases j <;> simp [Matrix.vecHead, Matrix.vecTail] <;> (first | ring1 | linear_combination hcs)
  · rw [Matrix.det_fin_three]
    simp [Matrix.vecHead, Matrix.vecTail]
    all_goals (first | ring1 | linear_combination hcs)

theorem rot3_props (c s : ℝ) (hcs : s ^ 2 + c ^ 2 = 1) :
    ((!![c, s, 0; -s, c, 0; 0, 0, 1] : Matrix (Fin 3) (Fin 3) ℝ).transpose
        * !![c, s, 0; -s, c, 0; 0, 0, 1] = 1) ∧
    (!![c, s, 0; -s, c, 0; 0, 0, 1] * (!![c, s, 0; -s, c, 0; 0, 0, 1]
        : Matrix (Fin 3) (Fin 3) ℝ).transpose = 1) ∧
    (!![c, s, 0; -s, c, 0; 0, 0, 1] : Matrix (Fin 3) (Fin 3) ℝ).det = 1 := by
  have ht : (!![c, s, 0; -s, c, 0; 0, 0, 1] : Matrix (Fin 3) (Fin 3) ℝ).transpose
      = !![c, -s, 0; s, c, 0; 0, 0, 1] := by
    rw [Matrix.eta_fin_three ((!![c, s, 0; -s, c, 0; 0, 0, 1] :
        Matrix (Fin 3) (Fin 3) ℝ).transpose)]
    simp [Matrix.vecHead, Matrix.vecTail]
  refine ⟨?_, ?_, ?_⟩
  · rw [ht, Matrix.mul_fin_three, Matrix.one_fin_three]
    ext i j
    fin_cases i <;> fin_cases j <;> simp [Matrix.vecHead, Matrix.vecTail] <;> (first | ring1 | linear_combination hcs)
  · rw [ht, Matrix.mul_fin_three, Matrix.one_fin_three]
    ext i j
    fin_cases i <;> fin_cases j <;> simp [Matrix.vecHead, Matrix.vecTail] <;> (first | ring1 | linear_combination hcs)
  · rw [Matrix.det_fin_three]
    simp [Matrix.vecHead, Matrix.vecTail]
    all_goals (first | ring1 | linear_combination hcs)

/-- C6: every matrix actually returned by `rot` (i.e. for axis 1, 2 or 3,
any angle, degrees or radians) is orthogonal — its transpose is a two-sided
inverse — and has determinant `+1`. -/
theorem rot_orthogonal (angle : ℝ) (axis : ℕ) (in_degrees : Bool)
    (R : Matrix (Fin 3) (Fin 3) ℝ) (h : rot angle axis in_degrees = some R) :
    R.transpose * R = 1 ∧ R * R.transpose = 1 ∧ R.det = 1 := by
  simp only [rot] at h
  set a := if in_degrees then deg2rad angle else angle with ha
  have pyth : Real.sin a ^ 2 + Real.cos a ^ 2 = 1 := Real.sin_sq_add_cos_sq a
  split_ifs at h
  · injection h with h; subst h; exact rot1_props _ _ pyth
  · injection h with h; subst h; exact rot2_props _ _ pyth
  · injection h with h; subst h; exact rot3_props _ _ pyth

/-- C6 (witness): the axis-1 rotation at angle 0 (in degrees). -/
theorem rot_orthogonal_witness :
    ((rot 0 1 true).getD 1).transpose * ((rot 0 1 true).getD 1) = 1 ∧
    ((rot 0 1 true).getD 1) * ((rot 0 1 true).getD 1).transpose = 1 ∧
    ((rot 0 1 true).getD 1).det = 1 :=
  rot_orthogonal 0 1 true _ (by simp [rot])

/-- C8 (counterexample): at the zero LOS vector no `ZeroVector` error is
raised: the code divides by the zero norm unconditionally and returns a
plain value (in NumPy floating point the division yields NaN entries that
propagate silently; in the exact embedding division by zero gives 0). -/
theorem project_enu_to_los_zero_cex :
    project_enu_to_los ![1, 2, 3] ![0, 0, 0] 0 0 none = 0 := by
  have h0 : (fun j => (![0, 0, 0] : Fin 3 → ℝ) j / npNorm ![0, 0, 0])
      = (0 : Fin 3 → ℝ) := by
    funext j
    fin_cases j <;> simp
  simp only [project_enu_to_los, h0]
  simp [rotate_xyz_to_enu]

/-- C8 (amended): the code performs no zero-vector check and raises no
error; it unconditionally divides by the Euclidean norm.  For every
`los_vec` of nonzero norm, the vector handed to `rotate_xyz_to_enu` is
`los_vec / ‖los_vec‖`, which has unit norm, and the projection is the
rotated unit vector dotted with `enu`. -/
theorem project_enu_to_los_normalizes (enu los_vec : Fin 3 → ℝ) (lat lon : ℝ)
    (h : npNorm los_vec ≠ 0) :
    npNorm (fun j => los_vec j / npNorm los_vec) = 1 ∧
    project_enu_to_los enu los_vec lat lon none
      = ∑ i, rotate_xyz_to_enu (fun j => los_vec j / npNorm los_vec) lat lon i * enu i := by
  refine ⟨?_, rfl⟩
  have hS : (0 : ℝ) ≤ ∑ i, los_vec i ^ 2 := Finset.sum_nonneg fun i _ => sq_nonneg _
  have hsq : npNorm los_vec ^ 2 = ∑ i, los_vec i ^ 2 := Real.sq_sqrt hS
  rw [npNorm]
  have hdiv : ∀ i ∈ Finset.univ, (los_vec i / npNorm los_vec) ^ 2
      = los_vec i ^ 2 / npNorm los_vec ^ 2 := fun i _ => div_pow _ _ _
  rw [Finset.sum_congr rfl hdiv, ← Finset.sum_div, ← hsq,
    div_self (pow_ne_zero 2 h), Real.sqrt_one]

/-- C8 (witness): the LOS vector `[3,4,0]` has norm 5 ≠ 0. -/
theorem project_enu_to_los_normalizes_witness :
    npNorm (fun j => (![3, 4, 0] : Fin 3 → ℝ) j / npNorm ![3, 4, 0]) = 1 ∧
    project_enu_to_los ![1, 2, 3] ![3, 4, 0] 0 0 none
      = ∑ i, rotate_xyz_to_enu (fun j => (![3, 4, 0] : Fin 3 → ℝ) j / npNorm ![3, 4, 0]) 0 0 i
          * (![1, 2, 3] : Fin 3 → ℝ) i :=
  project_enu_to_los_normalizes ![1, 2, 3] ![3, 4, 0] 0 0 (by
    rw [npNorm]
    norm_num [Fin.sum_univ_three])

/-- The sorted deduplicated list of values of `merged` lying in `l` is `l`
itself, when `l` is strictly sorted and contained in `merged`: the core of
`np.intersect1d(merged, l)` under the DateAxis invariant. -/
theorem sorted_unique_common (merged l : List ℤ) (hl : l.Sorted (· < ·))
    (hsub : ∀ v ∈ l, v ∈ merged) :
    ((merged.filter fun v => v ∈ l).insertionSort (· ≤ ·)).dedup = l := by
  have hsorted : (((merged.filter fun v => v ∈ l).insertionSort (· ≤ ·)).dedup).Sorted (· ≤ ·) :=
    List.Pairwise.sublist (List.dedup_sublist _) (List.sorted_insertionSort _ _)
  have hnodup := List.nodup_dedup ((merged.filter fun v => v ∈ l).insertionSort (· ≤ ·))
  have hmem : ∀ v, v ∈ ((merged.filter fun v => v ∈ l).insertionSort (· ≤ ·)).dedup ↔ v ∈ l := by
    intro v
    rw [List.mem_dedup, (List.perm_insertionSort _ _).mem_iff, List.mem_filter]
    constructor
    · rintro ⟨-, hv⟩
      simpa using hv
    · intro hv
      exact ⟨hsub v hv, by simpa using hv⟩
  exact List.eq_of_perm_of_sorted
    ((List.perm_ext_iff_of_nodup hnodup hl.nodup).mpr hmem) hsorted hl.le_of_lt

/-- C9: `merge_geolists` returns the sorted concatenation of the two
input date axes with no deduplication (a permutation of `l1 ++ l2`;
merging an axis with itself doubles its length), and `index_map_1[i]` is
a position in the merged axis at which the value `date_axis_1[i]` occurs
(the first occurrence), likewise `index_map_2`.  The hypotheses
`Sorted (· < ·)` are the DateAxis invariant of the data model: date axes
are strictly increasing. -/
theorem merge_geolists_spec (l1 l2 : List ℤ) (h1 : l1.Sorted (· < ·))
    (h2 : l2.Sorted (· < ·)) (i1 i2 : ℕ) (v1 v2 : ℤ)
    (hv1 : l1[i1]? = some v1) (hv2 : l2[i2]? = some v2) :
    (merge_geolists l1 l2).1.Sorted (· ≤ ·) ∧
    (merge_geolists l1 l2).1.Perm (l1 ++ l2) ∧
    (merge_geolists l1 l1).1.length = 2 * l1.length ∧
    (merge_geolists l1 l2).2.1[i1]? = some ((merge_geolists l1 l2).1.indexOf v1) ∧
    (merge_geolists l1 l2).1[(merge_geolists l1 l2).1.indexOf v1]? = some v1 ∧
    (merge_geolists l1 l2).2.2[i2]? = some ((merge_geolists l1 l2).1.indexOf v2) ∧
    (merge_geolists l1 l2).1[(merge_geolists l1 l2).1.indexOf v2]? = some v2 := by
  have hperm : ((l1 ++ l2).insertionSort (· ≤ ·)).Perm (l1 ++ l2) :=
    List.perm_insertionSort _ _
  have hsub1 : ∀ v ∈ l1, v ∈ (l1 ++ l2).insertionSort (· ≤ ·) := fun v hv =>
    hperm.mem_iff.mpr (List.mem_append_left _ hv)
  have hsub2 : ∀ v ∈ l2, v ∈ (l1 ++ l2).insertionSort (· ≤ ·) := fun v hv =>
    hperm.mem_iff.mpr (List.mem_append_right _ hv)
  have hm1 : v1 ∈ l1 := List.getElem?_mem hv1
  have hm2 : v2 ∈ l2 := List.getElem?_mem hv2
  simp only [merge_geolists, intersect1d]
  rw [sorted_unique_common _ l1 h1 hsub1, sorted_unique_common _ l2 h2 hsub2]
  refine ⟨List.sorted_insertionSort _ _, hperm, ?_, ?_, ?_, ?_, ?_⟩
  · rw [(List.perm_insertionSort _ _).length_eq, List.length_append, two_mul]
  · rw [List.getElem?_map, hv1]
    rfl
  · exact List.getElem?_indexOf (hsub1 v1 hm1)
  · rw [List.getElem?_map, hv2]
    rfl
  · exact List.getElem?_indexOf (hsub2 v2 hm2)

/-- C9 (witness): strictly increasing axes `[1, 2]` and `[3]`. -/
theorem merge_geolists_spec_witness :
    (merge_geolists [1, 2] [3]).1.Sorted (· ≤ ·) ∧
    (merge_geolists [1, 2] [3]).1.Perm ([1, 2] ++ [3]) ∧
    (merge_geolists [1, 2] [1, 2]).1.length = 2 * ([1, 2] : List ℤ).length ∧
    (merge_geolists [1, 2] [3]).2.1[0]? = some ((merge_geolists [1, 2] [3]).1.indexOf 1) ∧
    (merge_geolists [1, 2] [3]).1[(merge_geolists [1, 2] [3]).1.indexOf 1]? = some 1 ∧
    (merge_geolists [1, 2] [3]).2.2[0]? = some ((merge_geolists [1, 2] [3]).1.indexOf 3) ∧
    (merge_geolists [1, 2] [3]).1[(merge_geolists [1, 2] [3]).1.indexOf 3]? = some 3 :=
  merge_geolists_spec [1, 2] [3] (by decide) (by decide) 0 0 1 3 rfl rfl

end Apertools
